import Mathlib

/-!
Verification development for the Scoops & Smiles inventory and income-statement
engine (`DataScoop.py`).  The engine's state (catalog tables, the
`inventory_state` ledger and the append-only `purchases`/`sales` event logs) is
embedded as a Lean structure, the mutating operations (`add_location`,
`record_purchase`, `record_sale`) as state transformers returning
`Except Err AppState`, and the reporting queries as pure functions.  SQLite
`REAL` arithmetic is modelled with `ℚ`; `TEXT` date comparison is modelled by
byte-wise comparison of the formatted `YYYY-MM-DD` character-code lists, as
SQLite's default BINARY collation compares strings.
-/

set_option maxRecDepth 4000

/-- Business constant `OZ_PER_CONTAINER = 5 * 128` (640 ounces per container). -/
def OZ_PER_CONTAINER : ℚ := 5 * 128

/-- Constant `NAPKIN_COST_PER_ORDER = 20.0 / 10000.0 * 2` ($0.004 per order). -/
def NAPKIN_COST_PER_ORDER : ℚ := 20 / 10000 * 2

/-- The `SALE_PRICES` dict: price of a serving by size name. -/
def salePrices (size : String) : Option ℚ :=
  if size = "Kiddie" then some 3
  else if size = "Small" then some (7/2)
  else if size = "Medium" then some 4
  else if size = "Large" then some (9/2)
  else none

/-- The `SCOOPS_OZ` dict: serving volume in ounces by size name. -/
def scoopsOz (size : String) : Option ℚ :=
  if size = "Kiddie" then some 4
  else if size = "Small" then some 8
  else if size = "Medium" then some 12
  else if size = "Large" then some 16
  else none

/-- The `FIXED_EXPENSES` dict (category, monthly amount). -/
def FIXED_EXPENSES : List (String × ℚ) :=
  [("rent", 1000), ("utilities", 250), ("labor", 15000), ("equipment_lease", 2000)]

/-- The total `sum(FIXED_EXPENSES.values())` as used for `operating_expenses`. -/
def operatingExpensesTotal : ℚ := (FIXED_EXPENSES.map Prod.snd).sum

/-- Last `w` decimal digits of `n`, zero padded to width `w`, as ASCII
character codes (48 = the code of the digit zero). -/
def padLoop : Nat → Nat → List Nat
  | 0, _ => []
  | w + 1, n => padLoop w (n / 10) ++ [48 + n % 10]

/-- Full decimal representation of `n` as character codes (fuel-indexed;
`digitsAux n n` is total because `n / 10` shrinks). -/
def digitsAux : Nat → Nat → List Nat
  | 0, _ => []
  | fuel + 1, n => if n = 0 then [] else digitsAux fuel (n / 10) ++ [48 + n % 10]

/-- Python's `f"{n:0wd}"`: zero-pad to width `w` when `n` has at most `w`
digits, otherwise print all digits of `n` (no truncation). -/
def pyFmt (w n : Nat) : List Nat :=
  if n < 10 ^ w then padLoop w n else digitsAux n n

/-- Byte-wise strict comparison of character-code lists, the order SQLite's
BINARY collation uses on TEXT values (a strict prefix is smaller). -/
def lexLtB : List Nat → List Nat → Bool
  | _, [] => false
  | [], _ :: _ => true
  | a :: as, b :: bs => if a < b then true else if a = b then lexLtB as bs else false

/-- The test `x <= y` in SQLite TEXT order, i.e. not `y < x`. -/
def lexLeB (x y : List Nat) : Bool := ! lexLtB y x

/-- The string `f"{y:04d}-{m:02d}-{d:02d}"` as character codes (45 = the code of the
hyphen separator). -/
def fmtDate (y m d : Nat) : List Nat :=
  pyFmt 4 y ++ [45] ++ pyFmt 2 m ++ [45] ++ pyFmt 2 d

/-- Function `_month_bounds(year, month)`: start `f"{year:04d}-{month:02d}-01"` and end
`f"{year+1:04d}-01-01"` when `month == 12`, else `f"{year:04d}-{month+1:02d}-01"`. -/
def monthBounds (y m : Nat) : List Nat × List Nat :=
  (fmtDate y m 1, if m = 12 then fmtDate (y + 1) 1 1 else fmtDate y (m + 1) 1)

/-- The reporting date-window test `sale_date >= start AND sale_date < end`
with the bounds produced by `_month_bounds`. -/
def inPeriod (y m : Nat) (d : List Nat) : Bool :=
  lexLeB (monthBounds y m).1 d && lexLtB d (monthBounds y m).2

/-- One `inventory_state` row: `ounces_on_hand` and `avg_cost_per_oz`. -/
structure LedgerEntry where
  ouncesOnHand : ℚ
  avgCostPerOz : ℚ
deriving DecidableEq

/-- One `purchases` row. -/
structure PurchaseRow where
  locationId : Nat
  flavorId : Nat
  purchaseDate : List Nat
  containers : Int
  costPerContainer : ℚ
deriving DecidableEq

/-- One `sales` row. -/
structure SaleRow where
  locationId : Nat
  flavorId : Nat
  saleDate : List Nat
  size : String
  containerTypeId : Nat
  quantity : Int
deriving DecidableEq

/-- The database state: `locations` (id, name) with the AUTOINCREMENT counter,
the seeded `flavors` (id, name, cost_per_container) and `containers`
(id, name, price_per_pack, units_per_pack) tables, the `inventory_state`
ledger keyed by (location_id, flavor_id), and the two event logs. -/
structure AppState where
  locations : List (Nat × String)
  nextLocId : Nat
  flavors : List (Nat × String × ℚ)
  containers : List (Nat × String × ℚ × Nat)
  inv : Nat × Nat → Option LedgerEntry
  purchases : List PurchaseRow
  sales : List SaleRow

/-- Python exceptions raised by the engine: `ValueError(msg)` raised
explicitly by `record_sale`, and the `TypeError` that subscripting the `None`
returned by `cur.fetchone()` for an unknown flavor raises in `record_purchase`. -/
inductive Err where
  | valueError (msg : String)
  | typeError
deriving DecidableEq

/-- The `on_hand` reading: the ledger quantity for a key, a missing row read as 0
(`float(row[0]) if row else 0.0`). -/
def onHandAt (s : AppState) (locationId flavorId : Nat) : ℚ :=
  match s.inv (locationId, flavorId) with
  | some e => e.ouncesOnHand
  | none => 0

/-- The ledger average cost for a key, a missing row read as 0, as the
reporting query does (`float(row[0]) if row and row[0] is not None else 0.0`). -/
def avgCostAt (s : AppState) (locationId flavorId : Nat) : ℚ :=
  match s.inv (locationId, flavorId) with
  | some e => e.avgCostPerOz
  | none => 0

/-- The query `SELECT cost_per_container FROM flavors WHERE id=?`. -/
def findFlavorCost : List (Nat × String × ℚ) → Nat → Option ℚ
  | [], _ => none
  | (fid, _, c) :: rest, wanted => if fid = wanted then some c else findFlavorCost rest wanted

/-- Lookup of `conts[container_type_id]` = (name, price_per_pack, units_per_pack). -/
def findContainer : List (Nat × String × ℚ × Nat) → Nat → Option (String × ℚ × Nat)
  | [], _ => none
  | (cid, nm, pp, up) :: rest, wanted =>
    if cid = wanted then some (nm, pp, up) else findContainer rest wanted

/-- The ledger arithmetic of `record_purchase`:
`old_cost = old_oz * old_avg`, `new_oz = old_oz + added_oz`,
`new_avg = (old_cost + added_cost) / new_oz if new_oz > 0 else 0.0`. -/
def purchaseEntryUpdate (oldOz oldAvg addedOz addedCost : ℚ) : LedgerEntry :=
  { ouncesOnHand := oldOz + addedOz,
    avgCostPerOz :=
      if 0 < oldOz + addedOz then (oldOz * oldAvg + addedCost) / (oldOz + addedOz) else 0 }

/-- Function `record_purchase(location_id, flavor_id, containers, purchase_date)`.
The flavor cost is read first (an unknown flavor id raises a `TypeError` from
`cur.fetchone()[0]`); then the purchase event is inserted and the ledger row
is set to the weighted-average update.  No validation of `containers` and no
check that the location exists is performed (SQLite does not enforce the
foreign keys by default). -/
def record_purchase (locationId flavorId : Nat) (containers : Int) (purchaseDate : List Nat)
    (s : AppState) : Except Err AppState :=
  match findFlavorCost s.flavors flavorId with
  | none => .error .typeError
  | some costPerContainer =>
    let addedOz : ℚ := (containers : ℚ) * OZ_PER_CONTAINER
    let addedCost : ℚ := (containers : ℚ) * costPerContainer
    let e' := purchaseEntryUpdate (onHandAt s locationId flavorId)
      (avgCostAt s locationId flavorId) addedOz addedCost
    .ok { s with
      purchases := s.purchases ++
        [{ locationId := locationId, flavorId := flavorId, purchaseDate := purchaseDate,
           containers := containers, costPerContainer := costPerContainer }],
      inv := fun k => if k = (locationId, flavorId) then some e' else s.inv k }

/-- Function `record_sale(location_id, flavor_id, size, container_type_id, quantity, sale_date)`.
An unrecognized size raises `ValueError("Invalid size")` before anything is
read; then `oz_needed = SCOOPS_OZ[size] * quantity` is compared against the
on-hand quantity (missing row read as 0); on success the sale event is
appended and the ledger row — only if it exists, since the SQL `UPDATE`
matches no row otherwise — has its `ounces_on_hand` set to `on_hand - oz_needed`. -/
def record_sale (locationId flavorId : Nat) (size : String) (containerTypeId : Nat)
    (quantity : Int) (saleDate : List Nat) (s : AppState) : Except Err AppState :=
  match scoopsOz size with
  | none => .error (.valueError "Invalid size")
  | some perServing =>
    if onHandAt s locationId flavorId < perServing * (quantity : ℚ) then
      .error (.valueError "Insufficient inventory for this sale.")
    else .ok { s with
      sales := s.sales ++
        [{ locationId := locationId, flavorId := flavorId, saleDate := saleDate,
           size := size, containerTypeId := containerTypeId, quantity := quantity }],
      inv := fun k =>
        if k = (locationId, flavorId) then
          match s.inv (locationId, flavorId) with
          | some e =>
            some { e with
              ouncesOnHand := onHandAt s locationId flavorId - perServing * (quantity : ℚ) }
          | none => none
        else s.inv k }

/-- Python `str.strip()`: drop leading and trailing whitespace. -/
def pyStrip (s : String) : String :=
  ⟨((s.data.dropWhile Char.isWhitespace).reverse.dropWhile Char.isWhitespace).reverse⟩

/-- The insert `INSERT OR IGNORE INTO inventory_state(..., 0, 0)` for one key: create a
zero row only when the key is absent. -/
def insertZeroIfAbsent (locId fid : Nat) (inv : Nat × Nat → Option LedgerEntry) :
    Nat × Nat → Option LedgerEntry :=
  match inv (locId, fid) with
  | some _ => inv
  | none => fun k => if k = (locId, fid) then some ⟨0, 0⟩ else inv k

/-- The `for (flavor_id,) in cur.fetchall()` loop of `add_location`. -/
def addZeroEntries (locId : Nat) (fids : List Nat) (inv : Nat × Nat → Option LedgerEntry) :
    Nat × Nat → Option LedgerEntry :=
  fids.foldl (fun i fid => insertZeroIfAbsent locId fid i) inv

/-- Function `add_location(name)`: insert `name.strip()` into `locations` (the UNIQUE
constraint makes a duplicate name raise `IntegrityError`, caught and turned
into `False` with nothing changed), then insert-or-ignore a zero ledger row
for every existing flavor and return `True`. -/
def add_location (name : String) (s : AppState) : Bool × AppState :=
  if pyStrip name ∈ s.locations.map Prod.snd then (false, s)
  else
    (true,
      { s with
        locations := s.locations ++ [(s.nextLocId, pyStrip name)],
        nextLocId := s.nextLocId + 1,
        inv := addZeroEntries s.nextLocId (s.flavors.map Prod.fst) s.inv })

/-- The state right after `init_db()` on a fresh database: the five seeded
flavors, the three seeded containers, no locations, no events, empty ledger. -/
def initState : AppState where
  locations := []
  nextLocId := 1
  flavors := [(1, "Vanilla", 2), (2, "Chocolate", 2), (3, "Neapolitan", 5/2),
              (4, "Cookies & Cream", 3), (5, "Cookie Dough", 3)]
  containers := [(1, "Standard Cone", 5, 100), (2, "Waffle Cone", 6, 100),
                 (3, "Dish w/ Spoon", 9/2, 100)]
  inv := fun _ => none
  purchases := []
  sales := []

/-- One engine operation (the three mutators of the database state). -/
inductive Op where
  | purchase (locationId flavorId : Nat) (containers : Int) (date : List Nat)
  | sale (locationId flavorId : Nat) (size : String) (containerTypeId : Nat)
      (quantity : Int) (date : List Nat)
  | addLoc (name : String)

/-- Apply one operation; a raised error leaves the state unchanged (the
failing operation performs no write before it raises). -/
def stepOp (s : AppState) : Op → AppState
  | .purchase l f c d =>
    match record_purchase l f c d s with
    | .ok s' => s'
    | .error _ => s
  | .sale l f sz ct q d =>
    match record_sale l f sz ct q d s with
    | .ok s' => s'
    | .error _ => s
  | .addLoc n => (add_location n s).2

/-- Apply a sequence of operations. -/
def runOps (ops : List Op) (s : AppState) : AppState := ops.foldl stepOp s

/-- Operation well-formedness from the claims: purchases with a positive
container count, sales with a positive quantity. -/
def goodOp : Op → Bool
  | .purchase _ _ c _ => decide (0 < c)
  | .sale _ _ _ _ q _ => decide (0 < q)
  | .addLoc _ => true

/-- The ledger non-negativity invariant. -/
def InvNonneg (s : AppState) : Prop :=
  ∀ k e, s.inv k = some e → 0 ≤ e.ouncesOnHand

/-- Every stored sale event has a size recognized by `SCOOPS_OZ`, so the
reporting engine's unguarded `SCOOPS_OZ[size]` lookups are defined. -/
def SizesOk (s : AppState) : Prop :=
  ∀ r ∈ s.sales, (scoopsOz r.size).isSome

/-- The weighted-average step applied to a ledger entry for a purchase of
`p.1` containers at per-container cost `p.2` (as `record_purchase` does). -/
def purchaseStep (e : LedgerEntry) (p : Int × ℚ) : LedgerEntry :=
  purchaseEntryUpdate e.ouncesOnHand e.avgCostPerOz
    ((p.1 : ℚ) * OZ_PER_CONTAINER) ((p.1 : ℚ) * p.2)

/-- The GAAP-style income statement record built per location. -/
structure Stmt where
  revenue : ℚ
  cogsIcecream : ℚ
  cogsContainers : ℚ
  cogsNapkins : ℚ
  grossProfit : ℚ
  operatingExpenses : ℚ
  operatingIncome : ℚ
  netIncome : ℚ
deriving DecidableEq

/-- The all-zero statement the `company` accumulator starts from. -/
def zeroStmt : Stmt := ⟨0, 0, 0, 0, 0, 0, 0, 0⟩

/-- Field-wise addition (`company[k] += st[k]`). -/
def stmtAdd (a b : Stmt) : Stmt :=
  ⟨a.revenue + b.revenue, a.cogsIcecream + b.cogsIcecream,
   a.cogsContainers + b.cogsContainers, a.cogsNapkins + b.cogsNapkins,
   a.grossProfit + b.grossProfit, a.operatingExpenses + b.operatingExpenses,
   a.operatingIncome + b.operatingIncome, a.netIncome + b.netIncome⟩

/-- The running accumulator of the per-location sales loop of
`generate_income_statement`. -/
structure LoopAcc where
  revenue : ℚ
  ozByFlavor : List (Nat × ℚ)
  containerOrders : Int
  containerCost : ℚ

/-- The dict update `oz_sold_by_flavor[flavor_id] = oz_sold_by_flavor.get(flavor_id, 0.0) + oz`. -/
def bump : List (Nat × ℚ) → Nat → ℚ → List (Nat × ℚ)
  | [], f, oz => [(f, oz)]
  | (g, v) :: rest, f, oz =>
    if g = f then (g, v + oz) :: rest else (g, v) :: bump rest f oz

/-- One iteration of the sales loop: accumulate revenue (price lookup is
defaulted, `SALE_PRICES.get(size, 0.0)`), then the unguarded `SCOOPS_OZ[size]`
and `conts[container_type_id]` lookups (a `KeyError`, i.e. `none`, aborts the
whole report), the per-flavor volume, the container cost
`(price_pack / units) * qty` and the order count `container_orders += qty`. -/
def accRow (conts : List (Nat × String × ℚ × Nat)) (acc : LoopAcc) (r : SaleRow) :
    Option LoopAcc :=
  match scoopsOz r.size with
  | none => none
  | some perServing =>
    match findContainer conts r.containerTypeId with
    | none => none
    | some (_, pricePack, unitsPack) =>
      some { revenue := acc.revenue + (salePrices r.size).getD 0 * (r.quantity : ℚ),
             ozByFlavor := bump acc.ozByFlavor r.flavorId (perServing * (r.quantity : ℚ)),
             containerOrders := acc.containerOrders + r.quantity,
             containerCost := acc.containerCost + pricePack / (unitsPack : ℚ) * (r.quantity : ℚ) }

/-- The sales loop over a location's rows in the period. -/
def accRows (conts : List (Nat × String × ℚ × Nat)) :
    LoopAcc → List SaleRow → Option LoopAcc
  | acc, [] => some acc
  | acc, r :: rest =>
    match accRow conts acc r with
    | none => none
    | some a => accRows conts a rest

/-- The rows returned by `SELECT ... FROM sales WHERE location_id=? AND
sale_date>=? AND sale_date<?`. -/
def salesForLoc (s : AppState) (locId : Nat) (start stop : List Nat) : List SaleRow :=
  s.sales.filter fun r =>
    r.locationId == locId && lexLeB start r.saleDate && lexLtB r.saleDate stop

/-- Assemble one location's statement from the finished accumulator:
`icecream_cogs` sums `avg_cost(loc, flavor) * oz` over the grouped volumes
(current ledger average, missing row read as 0), `napkins_cogs =
NAPKIN_COST_PER_ORDER * container_orders`, and the derived totals. -/
def mkStmt (s : AppState) (locId : Nat) (acc : LoopAcc) : Stmt :=
  let icecream := acc.ozByFlavor.foldl (fun c p => c + avgCostAt s locId p.1 * p.2) 0
  let napkins := NAPKIN_COST_PER_ORDER * (acc.containerOrders : ℚ)
  let cogsTotal := icecream + acc.containerCost + napkins
  let gross := acc.revenue - cogsTotal
  let opex := operatingExpensesTotal
  { revenue := acc.revenue, cogsIcecream := icecream, cogsContainers := acc.containerCost,
    cogsNapkins := napkins, grossProfit := gross, operatingExpenses := opex,
    operatingIncome := gross - opex, netIncome := gross - opex }

/-- One location's monthly statement, `none` when a lookup in the loop raises. -/
def incomeStatementLoc (s : AppState) (start stop : List Nat) (locId : Nat) : Option Stmt :=
  (accRows s.containers ⟨0, [], 0, 0⟩ (salesForLoc s locId start stop)).map (mkStmt s locId)

/-- The per-location loop of `generate_income_statement` building the
`statements` list; any raising location aborts the whole report. -/
def stmtsForLocs (s : AppState) (start stop : List Nat) :
    List (Nat × String) → Option (List (String × Stmt))
  | [] => some []
  | (locId, nm) :: rest =>
    match incomeStatementLoc s start stop locId with
    | none => none
    | some st =>
      match stmtsForLocs s start stop rest with
      | none => none
      | some tl => some ((nm, st) :: tl)

/-- Function `generate_income_statement(year, month)`: the per-location statements and
the company accumulator obtained by field-wise `+=` over them. -/
def generate_income_statement (year month : Nat) (s : AppState) :
    Option (List (String × Stmt) × Stmt) :=
  (stmtsForLocs s (monthBounds year month).1 (monthBounds year month).2 s.locations).map
    fun stmts => (stmts, stmts.foldl (fun c q => stmtAdd c q.2) zeroStmt)

/-- Extract the success state of an engine call (used to name concrete
post-states in closed statements). -/
def okOr (r : Except Err AppState) (dflt : AppState) : AppState :=
  match r with
  | .ok s => s
  | .error _ => dflt

/-- A concrete date used in concrete runs. -/
def dEx : List Nat := fmtDate 2024 5 10

/-- A concrete state: one location and one sale line of quantity 2 in May 2024. -/
def cState : AppState :=
  { initState with
    locations := [(1, "Main")],
    nextLocId := 2,
    sales := [{ locationId := 1, flavorId := 1, saleDate := fmtDate 2024 5 10,
                size := "Kiddie", containerTypeId := 1, quantity := 2 }] }

/-- A concrete state with stock on hand for (location 1, flavor 1). -/
def eState : AppState :=
  { initState with
    locations := [(1, "Main")],
    nextLocId := 2,
    inv := fun k => if k = (1, 1) then some ⟨1280, 2⟩ else none }

/-- Post-state of a concrete successful sale against `eState`. -/
def saleOkSt : AppState := okOr (record_sale 1 1 "Medium" 1 5 dEx eState) eState

/-- Post-state of a concrete zero-validation purchase of 0 containers. -/
def purchZeroSt : AppState := okOr (record_purchase 1 1 0 dEx initState) initState

/-- Post-state of a concrete negative-quantity sale with no ledger row. -/
def saleNegSt : AppState := okOr (record_sale 1 1 "Kiddie" 1 (-1) dEx initState) initState

/-- The statement `incomeStatementLoc` computes for `cState` in May 2024. -/
def cStmt : Stmt :=
  match incomeStatementLoc cState (fmtDate 2024 5 1) (fmtDate 2024 6 1) 1 with
  | some st => st
  | none => zeroStmt

/-! ### Lexicographic comparison of formatted dates -/

theorem lexLtB_nil_right (x : List Nat) : lexLtB x [] = false := by
  cases x <;> rfl

theorem lexLtB_cons_cons (a b : Nat) (as bs : List Nat) :
    lexLtB (a :: as) (b :: bs) =
      if a < b then true else if a = b then lexLtB as bs else false := rfl

theorem lexLtB_cons_same (c : Nat) (x y : List Nat) :
    lexLtB (c :: x) (c :: y) = lexLtB x y := by
  simp [lexLtB_cons_cons]

theorem lexLtB_single (u v : Nat) : (lexLtB [u] [v] = true) ↔ u < v := by
  by_cases h : u < v
  · simp [lexLtB_cons_cons, h]
  · by_cases h2 : u = v <;> simp [lexLtB_cons_cons, lexLtB, h, h2]

theorem lexLtB_append (x : List Nat) : ∀ (y x' y' : List Nat), x.length = y.length →
    ((lexLtB (x ++ x') (y ++ y') = true) ↔
      (lexLtB x y = true ∨ (x = y ∧ lexLtB x' y' = true))) := by
  induction x with
  | nil =>
    intro y x' y' h
    cases y with
    | nil => simp [lexLtB]
    | cons b bs => simp at h
  | cons a as ih =>
    intro y x' y' h
    cases y with
    | nil => simp at h
    | cons b bs =>
      simp only [List.length_cons, Nat.add_right_cancel_iff] at h
      simp only [List.cons_append, lexLtB_cons_cons]
      by_cases hab : a < b
      · simp [hab, Nat.ne_of_lt hab]
      · by_cases heq : a = b
        · subst heq
          simp only [hab, if_false, if_pos rfl, if_true, List.cons.injEq, true_and,
            eq_self_iff_true]
          exact ih bs x' y' h
        · simp [hab, heq]

theorem padLoop_length (w : Nat) : ∀ n, (padLoop w n).length = w := by
  induction w with
  | zero => intro n; rfl
  | succ w ih => intro n; simp [padLoop, ih]

theorem padLoop_inj (w : Nat) : ∀ a b, a < 10 ^ w → b < 10 ^ w →
    ((padLoop w a = padLoop w b) ↔ a = b) := by
  induction w with
  | zero =>
    intro a b ha hb
    rw [pow_zero] at ha hb
    have ha0 : a = 0 := by omega
    have hb0 : b = 0 := by omega
    subst ha0; subst hb0
    simp [padLoop]
  | succ w ih =>
    intro a b ha hb
    have ha' : a / 10 < 10 ^ w := by
      rw [Nat.div_lt_iff_lt_mul (by norm_num)]
      calc a < 10 ^ (w + 1) := ha
        _ = 10 ^ w * 10 := pow_succ 10 w
    have hb' : b / 10 < 10 ^ w := by
      rw [Nat.div_lt_iff_lt_mul (by norm_num)]
      calc b < 10 ^ (w + 1) := hb
        _ = 10 ^ w * 10 := pow_succ 10 w
    simp only [padLoop]
    constructor
    · intro h
      rcases List.append_inj' h (by simp) with ⟨h1, h2⟩
      have e1 : a / 10 = b / 10 := (ih _ _ ha' hb').mp h1
      simp only [List.cons.injEq] at h2
      omega
    · intro h; rw [h]

theorem padLoop_lt (w : Nat) : ∀ a b, a < 10 ^ w → b < 10 ^ w →
    ((lexLtB (padLoop w a) (padLoop w b) = true) ↔ a < b) := by
  induction w with
  | zero =>
    intro a b ha hb
    rw [pow_zero] at ha hb
    have ha0 : a = 0 := by omega
    have hb0 : b = 0 := by omega
    subst ha0; subst hb0
    simp [padLoop, lexLtB]
  | succ w ih =>
    intro a b ha hb
    have ha' : a / 10 < 10 ^ w := by
      rw [Nat.div_lt_iff_lt_mul (by norm_num)]
      calc a < 10 ^ (w + 1) := ha
        _ = 10 ^ w * 10 := pow_succ 10 w
    have hb' : b / 10 < 10 ^ w := by
      rw [Nat.div_lt_iff_lt_mul (by norm_num)]
      calc b < 10 ^ (w + 1) := hb
        _ = 10 ^ w * 10 := pow_succ 10 w
    simp only [padLoop]
    rw [lexLtB_append _ _ _ _ (by rw [padLoop_length, padLoop_length])]
    rw [ih _ _ ha' hb', padLoop_inj w _ _ ha' hb', lexLtB_single]
    omega

theorem pyFmt_of_lt (w n : Nat) (h : n < 10 ^ w) : pyFmt w n = padLoop w n := by
  simp [pyFmt, h]

theorem fmtDate_lt_iff (y1 m1 d1 y2 m2 d2 : Nat) (hy1 : y1 < 10000) (hy2 : y2 < 10000)
    (hm1 : m1 < 100) (hm2 : m2 < 100) (hd1 : d1 < 100) (hd2 : d2 < 100) :
    ((lexLtB (fmtDate y1 m1 d1) (fmtDate y2 m2 d2) = true) ↔
      (y1 < y2 ∨ (y1 = y2 ∧ (m1 < m2 ∨ (m1 = m2 ∧ d1 < d2))))) := by
  have hp4 : (10 : Nat) ^ 4 = 10000 := by norm_num
  have hp2 : (10 : Nat) ^ 2 = 100 := by norm_num
  have py1 : y1 < 10 ^ 4 := by rw [hp4]; exact hy1
  have py2 : y2 < 10 ^ 4 := by rw [hp4]; exact hy2
  have pm1 : m1 < 10 ^ 2 := by rw [hp2]; exact hm1
  have pm2 : m2 < 10 ^ 2 := by rw [hp2]; exact hm2
  have pd1 : d1 < 10 ^ 2 := by rw [hp2]; exact hd1
  have pd2 : d2 < 10 ^ 2 := by rw [hp2]; exact hd2
  unfold fmtDate
  rw [pyFmt_of_lt 4 y1 py1, pyFmt_of_lt 4 y2 py2, pyFmt_of_lt 2 m1 pm1,
    pyFmt_of_lt 2 m2 pm2, pyFmt_of_lt 2 d1 pd1, pyFmt_of_lt 2 d2 pd2]
  simp only [List.append_assoc, List.cons_append, List.nil_append, List.singleton_append]
  rw [lexLtB_append (padLoop 4 y1) (padLoop 4 y2) _ _
    (by rw [padLoop_length, padLoop_length])]
  rw [lexLtB_cons_same]
  rw [lexLtB_append (padLoop 2 m1) (padLoop 2 m2) _ _
    (by rw [padLoop_length, padLoop_length])]
  rw [lexLtB_cons_same]
  rw [padLoop_lt 4 y1 y2 py1 py2, padLoop_inj 4 y1 y2 py1 py2,
    padLoop_lt 2 m1 m2 pm1 pm2, padLoop_inj 2 m1 m2 pm1 pm2,
    padLoop_lt 2 d1 d2 pd1 pd2]

theorem fmtDate_le_iff (y1 m1 d1 y2 m2 d2 : Nat) (hy1 : y1 < 10000) (hy2 : y2 < 10000)
    (hm1 : m1 < 100) (hm2 : m2 < 100) (hd1 : d1 < 100) (hd2 : d2 < 100) :
    ((lexLeB (fmtDate y1 m1 d1) (fmtDate y2 m2 d2) = true) ↔
      (y1 < y2 ∨ (y1 = y2 ∧ (m1 < m2 ∨ (m1 = m2 ∧ d1 ≤ d2))))) := by
  have h := fmtDate_lt_iff y2 m2 d2 y1 m1 d1 hy2 hy1 hm2 hm1 hd2 hd1
  unfold lexLeB
  cases hb : lexLtB (fmtDate y2 m2 d2) (fmtDate y1 m1 d1) <;> simp [hb] at h ⊢ <;> omega

/-- C5 (amended): the income-statement window for `(Y, M)` is the closed-open
string range `[Y-M-01, first-of-next-month)`, and for every valid event date
`(ey, em, ed)` other than one in December 9999 the membership test of the
reporting queries holds exactly when `(Y, M) = (ey, em)`; hence such a date
falls in exactly one month's statement, a first-of-month date belongs to its
month and a last-of-month date does not belong to the next.  December 9999 is
excluded because `_month_bounds(9999, 12)` renders the upper bound with a
five-digit year, which compares below every four-digit-year date. -/
theorem c5_month_window (Y M ey em ed : Nat) (hY : Y < 10000) (hM1 : 1 ≤ M) (hM2 : M ≤ 12)
    (hey : ey < 10000) (hem1 : 1 ≤ em) (hem2 : em ≤ 12) (hed1 : 1 ≤ ed) (hed2 : ed ≤ 31)
    (hnot : ¬(ey = 9999 ∧ em = 12)) :
    ((inPeriod Y M (fmtDate ey em ed) = true) ↔ (Y = ey ∧ M = em)) := by
  simp only [inPeriod, monthBounds]
  have hif : ∀ Y' : Nat, (if (12 : Nat) = 12 then fmtDate (Y' + 1) 1 1
      else fmtDate Y' (12 + 1) 1) = fmtDate (Y' + 1) 1 1 := fun Y' => if_pos rfl
  by_cases hM12 : M = 12
  · subst hM12
    by_cases hY9 : Y = 9999
    · subst hY9
      rw [hif, Bool.and_eq_true]
      constructor
      · intro h
        have hle := (fmtDate_le_iff 9999 12 1 ey em ed (by norm_num) hey (by norm_num)
          (by omega) (by norm_num) (by omega)).mp h.1
        omega
      · intro h
        exact absurd ⟨h.1.symm, h.2.symm⟩ hnot
    · rw [hif, Bool.and_eq_true,
        fmtDate_le_iff Y 12 1 ey em ed hY hey (by norm_num) (by omega) (by norm_num)
          (by omega),
        fmtDate_lt_iff ey em ed (Y + 1) 1 1 hey (by omega) (by omega) (by norm_num)
          (by omega) (by norm_num)]
      omega
  · simp only [if_neg hM12]
    rw [Bool.and_eq_true,
      fmtDate_le_iff Y M 1 ey em ed hY hey (by omega) (by omega) (by norm_num) (by omega),
      fmtDate_lt_iff ey em ed Y (M + 1) 1 hey hY (by omega) (by omega) (by omega)
        (by norm_num)]
    omega

/-- C5 witness: February 29 2024 belongs to the February 2024 statement window
(and, by the theorem, to no other month). -/
theorem c5_witness : (inPeriod 2024 2 (fmtDate 2024 2 29) = true) ↔ (2024 = 2024 ∧ 2 = 2) :=
  c5_month_window 2024 2 2024 2 29 (by omega) (by omega) (by omega) (by omega) (by omega)
    (by omega) (by omega) (by omega) (by omega)

/-- C5 counterexample: 9999-12-01, the first day of December 9999 and a valid
`YYYY-MM-DD` date, does not satisfy the December-9999 window test, because the
window's upper bound `_month_bounds(9999, 12).end = "10000-01-01"` compares
lexicographically below `"9999-12-01"`; so this valid date falls in no month's
income statement, refuting "every valid event date falls in exactly one
month's income statement" and "an event dated the first day of a month
belongs to that month". -/
theorem c5_counterexample : inPeriod 9999 12 (fmtDate 9999 12 1) = false := by decide

/-! ### Shape lemmas for the engine operations -/

theorem scoopsOz_pos (size : String) (oz : ℚ) (h : scoopsOz size = some oz) : 0 < oz := by
  unfold scoopsOz at h
  split_ifs at h <;> simp only [Option.some.injEq] at h <;> rw [← h] <;> norm_num

theorem onHandAt_nonneg (s : AppState) (l f : Nat) (h : InvNonneg s) : 0 ≤ onHandAt s l f := by
  unfold onHandAt
  cases he : s.inv (l, f) with
  | none => norm_num
  | some e => exact h _ _ he

theorem record_purchase_none (l f : Nat) (c : Int) (d : List Nat) (s : AppState)
    (h : findFlavorCost s.flavors f = none) :
    record_purchase l f c d s = .error .typeError := by
  unfold record_purchase
  rw [h]

theorem record_purchase_ok (l f : Nat) (c : Int) (d : List Nat) (s : AppState) (p : ℚ)
    (h : findFlavorCost s.flavors f = some p) :
    record_purchase l f c d s = .ok
      { s with
        purchases := s.purchases ++ [⟨l, f, d, c, p⟩],
        inv := fun k => if k = (l, f) then
            some (purchaseEntryUpdate (onHandAt s l f) (avgCostAt s l f)
              ((c : ℚ) * OZ_PER_CONTAINER) ((c : ℚ) * p))
          else s.inv k } := by
  unfold record_purchase
  rw [h]

theorem record_sale_invalid (l f : Nat) (size : String) (ct : Nat) (q : Int) (d : List Nat)
    (s : AppState) (h : scoopsOz size = none) :
    record_sale l f size ct q d s = .error (.valueError "Invalid size") := by
  unfold record_sale
  rw [h]

theorem record_sale_insufficient (l f : Nat) (size : String) (ct : Nat) (q : Int)
    (d : List Nat) (s : AppState) (oz : ℚ) (h : scoopsOz size = some oz)
    (hlt : onHandAt s l f < oz * (q : ℚ)) :
    record_sale l f size ct q d s = .error (.valueError "Insufficient inventory for this sale.") := by
  unfold record_sale
  rw [h]
  dsimp only
  rw [if_pos hlt]

theorem record_sale_ok (l f : Nat) (size : String) (ct : Nat) (q : Int) (d : List Nat)
    (s : AppState) (oz : ℚ) (h : scoopsOz size = some oz)
    (hge : ¬ onHandAt s l f < oz * (q : ℚ)) :
    record_sale l f size ct q d s = .ok
      { s with
        sales := s.sales ++ [⟨l, f, d, size, ct, q⟩],
        inv := fun k =>
          if k = (l, f) then
            match s.inv (l, f) with
            | some e => some { e with ouncesOnHand := onHandAt s l f - oz * (q : ℚ) }
            | none => none
          else s.inv k } := by
  unfold record_sale
  rw [h]
  dsimp only
  rw [if_neg hge]

theorem insertZeroIfAbsent_spec (locId fid : Nat) (inv : Nat × Nat → Option LedgerEntry)
    (k : Nat × Nat) :
    insertZeroIfAbsent locId fid inv k = inv k ∨
      insertZeroIfAbsent locId fid inv k = some ⟨0, 0⟩ := by
  unfold insertZeroIfAbsent
  cases h : inv (locId, fid) with
  | some e => simp [h]
  | none =>
    simp only [h]
    by_cases hk : k = (locId, fid)
    · right; simp [hk]
    · left; simp [hk]

theorem insertZeroIfAbsent_other (locId fid : Nat) (inv : Nat × Nat → Option LedgerEntry)
    (k : Nat × Nat) (hk : k ≠ (locId, fid)) :
    insertZeroIfAbsent locId fid inv k = inv k := by
  unfold insertZeroIfAbsent
  cases h : inv (locId, fid) with
  | some e => rfl
  | none => simp [hk]

theorem addZeroEntries_spec (fids : List Nat) : ∀ (locId : Nat)
    (inv : Nat × Nat → Option LedgerEntry) (k : Nat × Nat),
    addZeroEntries locId fids inv k = inv k ∨ addZeroEntries locId fids inv k = some ⟨0, 0⟩ := by
  induction fids with
  | nil => intro locId inv k; left; rfl
  | cons g gs ih =>
    intro locId inv k
    have e : addZeroEntries locId (g :: gs) inv
        = addZeroEntries locId gs (insertZeroIfAbsent locId g inv) := rfl
    rw [e]
    rcases ih locId (insertZeroIfAbsent locId g inv) k with h | h
    · rcases insertZeroIfAbsent_spec locId g inv k with h2 | h2
      · left; rw [h, h2]
      · right; rw [h, h2]
    · right; exact h

theorem addZeroEntries_mem (fids : List Nat) : ∀ (locId : Nat)
    (inv : Nat × Nat → Option LedgerEntry) (fid : Nat), fid ∈ fids →
    (inv (locId, fid) = none ∨ inv (locId, fid) = some ⟨0, 0⟩) →
    addZeroEntries locId fids inv (locId, fid) = some ⟨0, 0⟩ := by
  induction fids with
  | nil => intro _ _ _ h; simp at h
  | cons g gs ih =>
    intro locId inv fid hmem hstart
    have e : addZeroEntries locId (g :: gs) inv
        = addZeroEntries locId gs (insertZeroIfAbsent locId g inv) := rfl
    rw [e]
    by_cases hfg : fid = g
    · subst hfg
      have hkey : insertZeroIfAbsent locId fid inv (locId, fid) = some ⟨0, 0⟩ := by
        unfold insertZeroIfAbsent
        rcases hstart with h | h <;> simp [h]
      rcases addZeroEntries_spec gs locId (insertZeroIfAbsent locId fid inv) (locId, fid)
        with h | h
      · rw [h, hkey]
      · exact h
    · have hmem' : fid ∈ gs := by
        cases hmem with
        | head => exact absurd rfl hfg
        | tail _ h => exact h
      apply ih locId _ fid hmem'
      rw [insertZeroIfAbsent_other locId g inv (locId, fid) (by simp [hfg])]
      exact hstart

theorem runOps_cons (op : Op) (ops : List Op) (s : AppState) :
    runOps (op :: ops) s = runOps ops (stepOp s op) := by
  unfold runOps
  rw [List.foldl_cons]


/-! ### Invariant preservation -/

theorem stepOp_nonneg (s : AppState) (op : Op) (hg : goodOp op = true) (h : InvNonneg s) :
    InvNonneg (stepOp s op) := by
  cases op with
  | purchase l f c d =>
    have hc : 0 < c := of_decide_eq_true hg
    cases hfc : findFlavorCost s.flavors f with
    | none =>
      simp only [stepOp]
      rw [record_purchase_none l f c d s hfc]
      exact h
    | some p =>
      simp only [stepOp]
      rw [record_purchase_ok l f c d s p hfc]
      intro k e hk
      dsimp only at hk
      by_cases hkey : k = (l, f)
      · rw [if_pos hkey] at hk
        injection hk with hk'
        rw [← hk']
        unfold purchaseEntryUpdate
        dsimp only
        have h0 := onHandAt_nonneg s l f h
        have hcq : (0 : ℚ) < (c : ℚ) := by exact_mod_cast hc
        have hpos : (0 : ℚ) < (c : ℚ) * OZ_PER_CONTAINER := by
          apply mul_pos hcq
          unfold OZ_PER_CONTAINER
          norm_num
        linarith
      · rw [if_neg hkey] at hk
        exact h k e hk
  | sale l f sz ct q d =>
    cases hrs : record_sale l f sz ct q d s with
    | error er =>
      simp only [stepOp]
      rw [hrs]
      exact h
    | ok s' =>
      simp only [stepOp]
      rw [hrs]
      cases hsz : scoopsOz sz with
      | none => rw [record_sale_invalid l f sz ct q d s hsz] at hrs; exact absurd hrs (by simp)
      | some oz =>
        by_cases hlt : onHandAt s l f < oz * (q : ℚ)
        · rw [record_sale_insufficient l f sz ct q d s oz hsz hlt] at hrs
          exact absurd hrs (by simp)
        · rw [record_sale_ok l f sz ct q d s oz hsz hlt] at hrs
          injection hrs with h'
          rw [← h']
          intro k e hk
          dsimp only at hk
          by_cases hkey : k = (l, f)
          · rw [if_pos hkey] at hk
            cases hinv : s.inv (l, f) with
            | none => rw [hinv] at hk; exact absurd hk (by simp)
            | some e0 =>
              rw [hinv] at hk
              injection hk with hk'
              rw [← hk']
              dsimp only
              rw [not_lt] at hlt
              linarith
          · rw [if_neg hkey] at hk
            exact h k e hk
  | addLoc n =>
    simp only [stepOp]
    unfold add_location
    by_cases hdup : pyStrip n ∈ s.locations.map Prod.snd
    · rw [if_pos hdup]
      exact h
    · rw [if_neg hdup]
      intro k e hk
      dsimp only at hk
      rcases addZeroEntries_spec (s.flavors.map Prod.fst) s.nextLocId s.inv k with hs | hs
      · rw [hs] at hk
        exact h k e hk
      · rw [hs] at hk
        injection hk with hk'
        rw [← hk']

theorem sizesOk_step (s : AppState) (op : Op) (h : SizesOk s) : SizesOk (stepOp s op) := by
  cases op with
  | purchase l f c d =>
    cases hfc : findFlavorCost s.flavors f with
    | none =>
      simp only [stepOp]
      rw [record_purchase_none l f c d s hfc]
      exact h
    | some p =>
      simp only [stepOp]
      rw [record_purchase_ok l f c d s p hfc]
      intro r hr
      exact h r hr
  | sale l f sz ct q d =>
    cases hrs : record_sale l f sz ct q d s with
    | error er =>
      simp only [stepOp]
      rw [hrs]
      exact h
    | ok s' =>
      simp only [stepOp]
      rw [hrs]
      cases hsz : scoopsOz sz with
      | none => rw [record_sale_invalid l f sz ct q d s hsz] at hrs; exact absurd hrs (by simp)
      | some oz =>
        by_cases hlt : onHandAt s l f < oz * (q : ℚ)
        · rw [record_sale_insufficient l f sz ct q d s oz hsz hlt] at hrs
          exact absurd hrs (by simp)
        · rw [record_sale_ok l f sz ct q d s oz hsz hlt] at hrs
          injection hrs with h'
          rw [← h']
          intro r hr
          dsimp only at hr
          rcases List.mem_append.mp hr with hr | hr
          · exact h r hr
          · rw [List.mem_singleton] at hr
            subst hr
            dsimp only
            rw [hsz]
            rfl
  | addLoc n =>
    simp only [stepOp]
    unfold add_location
    by_cases hdup : pyStrip n ∈ s.locations.map Prod.snd
    · rw [if_pos hdup]
      exact h
    · rw [if_neg hdup]
      intro r hr
      exact h r hr

theorem sizesOk_run (ops : List Op) : ∀ s, SizesOk s → SizesOk (runOps ops s) := by
  induction ops with
  | nil => intro s h; exact h
  | cons op ops ih =>
    intro s h
    rw [runOps_cons]
    exact ih _ (sizesOk_step s op h)

/-- C1: a sale whose required volume `SCOOPS_OZ[size] * quantity` exceeds the
on-hand quantity of the (location, flavor) ledger row (a missing row read as
0) raises `InsufficientInventoryError` (a `ValueError`) with no state change
(no sale event, no ledger mutation); and over every sequence of purchases
with positive container count and sales with positive quantity (location
additions included), every ledger row keeps a non-negative `ounces_on_hand`. -/
theorem c1_sale_guard_and_nonneg :
    (∀ (s : AppState) (l f : Nat) (size : String) (ct : Nat) (q : Int) (d : List Nat) (oz : ℚ),
      scoopsOz size = some oz → onHandAt s l f < oz * (q : ℚ) →
      record_sale l f size ct q d s
          = .error (.valueError "Insufficient inventory for this sale.") ∧
        stepOp s (.sale l f size ct q d) = s) ∧
    (∀ ops : List Op, ops.all goodOp = true → ∀ s, InvNonneg s → InvNonneg (runOps ops s)) := by
  constructor
  · intro s l f size ct q d oz hsz hlt
    have he := record_sale_insufficient l f size ct q d s oz hsz hlt
    refine ⟨he, ?_⟩
    simp only [stepOp]
    rw [he]
  · intro ops
    induction ops with
    | nil => intro _ s h; exact h
    | cons op ops ih =>
      intro hall s h
      rw [List.all_cons, Bool.and_eq_true] at hall
      rw [runOps_cons]
      exact ih hall.2 _ (stepOp_nonneg s op hall.1 h)

/-- C1 witness: on the fresh state a Kiddie sale of 5 is rejected with no
state change, and a concrete good run keeps the ledger non-negative. -/
theorem c1_witness :
    (record_sale 1 1 "Kiddie" 1 5 dEx initState
        = .error (.valueError "Insufficient inventory for this sale.") ∧
      stepOp initState (.sale 1 1 "Kiddie" 1 5 dEx) = initState) ∧
    InvNonneg (runOps [Op.purchase 1 1 2 dEx, Op.sale 1 1 "Medium" 1 5 dEx] initState) :=
  ⟨c1_sale_guard_and_nonneg.1 initState 1 1 "Kiddie" 1 5 dEx 4 rfl
      (by with_unfolding_all decide),
   c1_sale_guard_and_nonneg.2 [Op.purchase 1 1 2 dEx, Op.sale 1 1 "Medium" 1 5 dEx]
     (by with_unfolding_all decide) initState (fun _ _ hk => nomatch hk)⟩

/-- C10: `record_sale` rejects any unrecognized size with
`ValueError("Invalid size")` before writing anything, and it is the only
operation appending sale events, so in every state reachable from the fresh
database by any operation sequence every stored sale has a size in
{Kiddie, Small, Medium, Large}; hence the reporting engine's unguarded
`SCOOPS_OZ[size]` lookups are defined over all recorded events. -/
theorem c10_sale_sizes_invariant :
    (∀ (s : AppState) (l f : Nat) (size : String) (ct : Nat) (q : Int) (d : List Nat),
      scoopsOz size = none →
      record_sale l f size ct q d s = .error (.valueError "Invalid size")) ∧
    (∀ ops : List Op, SizesOk (runOps ops initState)) :=
  ⟨fun s l f size ct q d h => record_sale_invalid l f size ct q d s h,
   fun ops => sizesOk_run ops initState (fun _ hr => nomatch hr)⟩

/-- C10 witness: an unrecognized size is rejected on the fresh state, and a
concrete run (with a quantity-0 sale that does append an event) satisfies the
size invariant. -/
theorem c10_witness :
    record_sale 1 1 "Huge" 1 1 dEx initState = .error (.valueError "Invalid size") ∧
    SizesOk (runOps [Op.sale 1 1 "Kiddie" 1 0 dEx] initState) :=
  ⟨c10_sale_sizes_invariant.1 initState 1 1 "Huge" 1 1 dEx rfl,
   c10_sale_sizes_invariant.2 [Op.sale 1 1 "Kiddie" 1 0 dEx]⟩

/-! ### Weighted-average costing -/

theorem purchaseEntryUpdate_cost (oldOz oldAvg addedOz addedCost : ℚ)
    (h : 0 < oldOz + addedOz) :
    (purchaseEntryUpdate oldOz oldAvg addedOz addedCost).ouncesOnHand *
      (purchaseEntryUpdate oldOz oldAvg addedOz addedCost).avgCostPerOz
      = oldOz * oldAvg + addedCost := by
  unfold purchaseEntryUpdate
  dsimp only
  rw [if_pos h, mul_comm, div_mul_cancel₀ _ (ne_of_gt h)]

theorem foldl_purchaseStep_inv (ps : List (Int × ℚ)) : ∀ e : LedgerEntry,
    0 ≤ e.ouncesOnHand → (∀ p ∈ ps, 0 < p.1) →
    ((ps.foldl purchaseStep e).ouncesOnHand
        = e.ouncesOnHand + (ps.map fun p => (p.1 : ℚ) * OZ_PER_CONTAINER).sum ∧
      (ps.foldl purchaseStep e).ouncesOnHand * (ps.foldl purchaseStep e).avgCostPerOz
        = e.ouncesOnHand * e.avgCostPerOz + (ps.map fun p => (p.1 : ℚ) * p.2).sum) := by
  induction ps with
  | nil => intro e he _; simp
  | cons p ps ih =>
    intro e he hall
    have hp : 0 < p.1 := hall p (List.mem_cons_self p ps)
    have hpQ : (0 : ℚ) < (p.1 : ℚ) := by exact_mod_cast hp
    have hOZ : (0 : ℚ) < OZ_PER_CONTAINER := by unfold OZ_PER_CONTAINER; norm_num
    have hadd : (0 : ℚ) < (p.1 : ℚ) * OZ_PER_CONTAINER := mul_pos hpQ hOZ
    have hoz : (purchaseStep e p).ouncesOnHand
        = e.ouncesOnHand + (p.1 : ℚ) * OZ_PER_CONTAINER := rfl
    have hnn : 0 ≤ (purchaseStep e p).ouncesOnHand := by rw [hoz]; linarith
    have hcost : (purchaseStep e p).ouncesOnHand * (purchaseStep e p).avgCostPerOz
        = e.ouncesOnHand * e.avgCostPerOz + (p.1 : ℚ) * p.2 :=
      purchaseEntryUpdate_cost e.ouncesOnHand e.avgCostPerOz ((p.1 : ℚ) * OZ_PER_CONTAINER)
        ((p.1 : ℚ) * p.2) (by linarith)
    have hall' : ∀ q ∈ ps, 0 < q.1 := fun q hq => hall q (List.mem_cons_of_mem p hq)
    rcases ih (purchaseStep e p) hnn hall' with ⟨ih1, ih2⟩
    rw [List.foldl_cons]
    constructor
    · rw [ih1, hoz, List.map_cons, List.sum_cons]
      ring
    · rw [ih2, hcost, List.map_cons, List.sum_cons]
      ring

/-- C2: `record_purchase` updates the (location, flavor) ledger row by the
weighted-average formula — `new_oz = old_oz + containers * OZ_PER_CONTAINER`
and `new_avg = (old_oz * old_avg + containers * cost) / new_oz` when
`new_oz > 0`, else 0 — and therefore, starting from an empty row, a sequence
of purchases `(c_1, p_1), ..., (c_n, p_n)` (container count, per-container
cost, all counts positive) with no intervening sales leaves an average cost
equal to the total cost divided by the total quantity,
`Σ(c_i * p_i) / Σ(c_i * OZ_PER_CONTAINER)` (i.e. `Σ(q_i * u_i) / Σ q_i` with
`q_i` the ounces added and `u_i` the per-ounce cost). -/
theorem c2_weighted_average :
    (∀ oldOz oldAvg addedOz addedCost : ℚ,
      (purchaseEntryUpdate oldOz oldAvg addedOz addedCost).ouncesOnHand = oldOz + addedOz ∧
      (purchaseEntryUpdate oldOz oldAvg addedOz addedCost).avgCostPerOz =
        (if 0 < oldOz + addedOz then (oldOz * oldAvg + addedCost) / (oldOz + addedOz)
         else 0)) ∧
    (∀ (s : AppState) (l f : Nat) (c : Int) (d : List Nat) (p : ℚ),
      findFlavorCost s.flavors f = some p →
      ∃ s', record_purchase l f c d s = .ok s' ∧
        s'.inv (l, f) = some (purchaseEntryUpdate (onHandAt s l f) (avgCostAt s l f)
          ((c : ℚ) * OZ_PER_CONTAINER) ((c : ℚ) * p))) ∧
    (∀ ps : List (Int × ℚ), (∀ p ∈ ps, 0 < p.1) → ps ≠ [] →
      (ps.foldl purchaseStep ⟨0, 0⟩).avgCostPerOz =
        (ps.map fun p => (p.1 : ℚ) * p.2).sum /
          (ps.map fun p => (p.1 : ℚ) * OZ_PER_CONTAINER).sum) := by
  refine ⟨fun oldOz oldAvg addedOz addedCost => ⟨rfl, rfl⟩, ?_, ?_⟩
  · intro s l f c d p hp
    refine ⟨_, record_purchase_ok l f c d s p hp, ?_⟩
    dsimp only
    rw [if_pos rfl]
  · intro ps hpos hne
    have hOZ : (0 : ℚ) < OZ_PER_CONTAINER := by unfold OZ_PER_CONTAINER; norm_num
    rcases foldl_purchaseStep_inv ps ⟨0, 0⟩ (by norm_num) hpos with ⟨h1, h2⟩
    dsimp only at h1 h2
    rw [zero_add] at h1
    rw [zero_mul, zero_add] at h2
    have hden : (0 : ℚ) < (ps.map fun p => (p.1 : ℚ) * OZ_PER_CONTAINER).sum := by
      apply List.sum_pos
      · intro x hx
        rcases List.mem_map.mp hx with ⟨q, hq, hqe⟩
        rw [← hqe]
        have : (0 : ℚ) < (q.1 : ℚ) := by exact_mod_cast hpos q hq
        exact mul_pos this hOZ
      · intro hmap
        exact hne (List.map_eq_nil_iff.mp hmap)
    rw [eq_div_iff (ne_of_gt hden), mul_comm]
    rw [← h1]
    exact h2

/-- C2 witness: the spec's own example — 2 containers at $2.00 then 1 at
$3.00 — gives average cost `(2*2 + 1*3) / (2*640 + 1*640)`, and a concrete
purchase on the fresh state updates the (1, 1) ledger row by the formula. -/
theorem c2_witness :
    (([((2 : Int), (2 : ℚ)), ((1 : Int), (3 : ℚ))].foldl purchaseStep ⟨0, 0⟩).avgCostPerOz =
      ([((2 : Int), (2 : ℚ)), ((1 : Int), (3 : ℚ))].map fun p => (p.1 : ℚ) * p.2).sum /
        ([((2 : Int), (2 : ℚ)), ((1 : Int), (3 : ℚ))].map
          fun p => (p.1 : ℚ) * OZ_PER_CONTAINER).sum) ∧
    (∃ s', record_purchase 1 1 2 dEx initState = .ok s' ∧
      s'.inv (1, 1) = some (purchaseEntryUpdate (onHandAt initState 1 1)
        (avgCostAt initState 1 1) ((2 : ℚ) * OZ_PER_CONTAINER) ((2 : ℚ) * 2))) :=
  ⟨c2_weighted_average.2.2 [((2 : Int), (2 : ℚ)), ((1 : Int), (3 : ℚ))]
      (by intro p hp; fin_cases hp <;> norm_num) (by simp),
   c2_weighted_average.2.1 initState 1 1 2 dEx 2 rfl⟩

/-- C3 (amended): `record_purchase` applies no validation to its container
count: for any `containers` value, including 0 and negatives, when the flavor
id exists the call succeeds, appends the purchase event and mutates the
ledger; when the flavor id is unknown it fails with the `TypeError` of
subscripting `cur.fetchone()`'s `None`, not a `NotFoundError`; an unknown
location id is never detected. -/
theorem c3_purchase_no_validation :
    (∀ (s : AppState) (l f : Nat) (c : Int) (d : List Nat), c ≤ 0 → ∀ p : ℚ,
      findFlavorCost s.flavors f = some p →
      ∃ s', record_purchase l f c d s = .ok s' ∧
        s'.purchases = s.purchases ++ [⟨l, f, d, c, p⟩]) ∧
    (∀ (s : AppState) (l f : Nat) (c : Int) (d : List Nat),
      findFlavorCost s.flavors f = none →
      record_purchase l f c d s = .error .typeError) :=
  ⟨fun s l f c d _ p hp => ⟨_, record_purchase_ok l f c d s p hp, rfl⟩,
   fun s l f c d h => record_purchase_none l f c d s h⟩

/-- C3 counterexample: `record_purchase` with `containers = 0` on the fresh
state does not fail with any validation error — it succeeds and records a
purchase event — refuting the claim that a call with `containerCount ≤ 0`
fails with `InvalidArgumentError` rather than recording. -/
theorem c3_counterexample :
    record_purchase 1 1 0 dEx initState = .ok purchZeroSt ∧
      purchZeroSt.purchases = [(⟨1, 1, dEx, 0, 2⟩ : PurchaseRow)] := by
  constructor
  · rw [record_purchase_ok 1 1 0 dEx initState 2 rfl]
    unfold purchZeroSt okOr
    rw [record_purchase_ok 1 1 0 dEx initState 2 rfl]
  · unfold purchZeroSt okOr
    rw [record_purchase_ok 1 1 0 dEx initState 2 rfl]
    rfl

/-- C3 witness: a negative container count is accepted and recorded on the
fresh state, and an unknown flavor id makes the call fail with the
`TypeError`-style error. -/
theorem c3_witness :
    (∃ s', record_purchase 1 1 (-2) dEx initState = .ok s' ∧
      s'.purchases = initState.purchases ++ [⟨1, 1, dEx, -2, 2⟩]) ∧
    record_purchase 1 77 5 dEx initState = .error .typeError :=
  ⟨c3_purchase_no_validation.1 initState 1 1 (-2) dEx (by norm_num) 2 rfl,
   c3_purchase_no_validation.2 initState 1 77 5 dEx rfl⟩

/-- C6: a successful sale changes only the on-hand quantity of the affected
(location, flavor) ledger row: the row's average unit cost is unchanged (the
read `avg_cost_per_oz` is identical before and after), and every other
ledger row is untouched. -/
theorem c6_sale_frame : ∀ (s : AppState) (l f : Nat) (size : String) (ct : Nat) (q : Int)
    (d : List Nat) (s' : AppState),
    record_sale l f size ct q d s = .ok s' →
    avgCostAt s' l f = avgCostAt s l f ∧
    (∀ e, s.inv (l, f) = some e → ∃ q', s'.inv (l, f) = some ⟨q', e.avgCostPerOz⟩) ∧
    (∀ k, k ≠ (l, f) → s'.inv k = s.inv k) := by
  intro s l f size ct q d s' h
  cases hsz : scoopsOz size with
  | none => rw [record_sale_invalid l f size ct q d s hsz] at h; exact absurd h (by simp)
  | some oz =>
    by_cases hlt : onHandAt s l f < oz * (q : ℚ)
    · rw [record_sale_insufficient l f size ct q d s oz hsz hlt] at h
      exact absurd h (by simp)
    · rw [record_sale_ok l f size ct q d s oz hsz hlt] at h
      injection h with h'
      rw [← h']
      refine ⟨?_, ?_, ?_⟩
      · unfold avgCostAt
        dsimp only
        rw [if_pos rfl]
        cases s.inv (l, f) <;> rfl
      · intro e he
        refine ⟨onHandAt s l f - oz * (q : ℚ), ?_⟩
        dsimp only
        rw [if_pos rfl, he]
      · intro k hk
        dsimp only
        rw [if_neg hk]

/-- C6 witness: a concrete successful sale (Medium × 5 against 1280 oz on
hand) leaves the row's average cost and an unrelated row unchanged. -/
theorem c6_witness :
    avgCostAt saleOkSt 1 1 = avgCostAt eState 1 1 ∧ saleOkSt.inv (2, 2) = eState.inv (2, 2) := by
  have hge : ¬ onHandAt eState 1 1 < 12 * ((5 : Int) : ℚ) := by with_unfolding_all decide
  have hok : record_sale 1 1 "Medium" 1 5 dEx eState = .ok saleOkSt := by
    rw [record_sale_ok 1 1 "Medium" 1 5 dEx eState 12 rfl hge]
    unfold saleOkSt okOr
    rw [record_sale_ok 1 1 "Medium" 1 5 dEx eState 12 rfl hge]
  have h := c6_sale_frame eState 1 1 "Medium" 1 5 dEx saleOkSt hok
  exact ⟨h.1, h.2.2 (2, 2) (by decide)⟩

/-- C9 (amended): for a recognized size and `quantity ≤ 0` the
inventory-sufficiency check passes whenever the on-hand reading is
non-negative (in particular for a missing or empty row, read as 0): the call
succeeds and appends the sale event.  When the ledger row exists its
quantity is set to `on_hand - SCOOPS_OZ[size] * quantity` (unchanged for
quantity 0, increased for negative quantity); when the row is missing the
SQL `UPDATE` matches no row, so the ledger is left entirely unchanged — the
quantity is not "set" and does not increase.  No error is raised. -/
theorem c9_nonpositive_sale : ∀ (s : AppState) (l f : Nat) (size : String) (ct : Nat)
    (q : Int) (d : List Nat) (oz : ℚ),
    scoopsOz size = some oz → q ≤ 0 → 0 ≤ onHandAt s l f →
    ∃ s', record_sale l f size ct q d s = .ok s' ∧
      s'.sales = s.sales ++ [⟨l, f, d, size, ct, q⟩] ∧
      (s.inv (l, f) = none → s'.inv (l, f) = none) ∧
      (∀ e, s.inv (l, f) = some e →
        s'.inv (l, f) = some ⟨e.ouncesOnHand - oz * (q : ℚ), e.avgCostPerOz⟩) := by
  intro s l f size ct q d oz hsz hq h0
  have hozpos := scoopsOz_pos size oz hsz
  have hqQ : (q : ℚ) ≤ 0 := by exact_mod_cast hq
  have hle : oz * (q : ℚ) ≤ 0 := by nlinarith
  have hge : ¬ onHandAt s l f < oz * (q : ℚ) := not_lt.mpr (le_trans hle h0)
  refine ⟨_, record_sale_ok l f size ct q d s oz hsz hge, rfl, ?_, ?_⟩
  · intro hnone
    dsimp only
    rw [if_pos rfl, hnone]
  · intro e he
    dsimp only
    rw [if_pos rfl, he]
    have : onHandAt s l f = e.ouncesOnHand := by unfold onHandAt; rw [he]
    rw [this]

/-- C9 counterexample: a Kiddie sale of quantity −1 with no (1, 1) ledger row
succeeds, but the ledger keeps no row for (1, 1) and the on-hand reading
stays 0 — it is not set to `on_hand - 4 * (-1) = 4` and does not increase,
refuting the claim that `quantity_on_hand` is set (and increases) even when
the entry is missing. -/
theorem c9_counterexample :
    record_sale 1 1 "Kiddie" 1 (-1) dEx initState = .ok saleNegSt ∧
    saleNegSt.inv (1, 1) = none ∧
    onHandAt saleNegSt 1 1 ≠ onHandAt initState 1 1 - 4 * ((-1 : Int) : ℚ) := by
  have hge : ¬ onHandAt initState 1 1 < 4 * ((-1 : Int) : ℚ) := by with_unfolding_all decide
  have hok : record_sale 1 1 "Kiddie" 1 (-1) dEx initState = .ok saleNegSt := by
    rw [record_sale_ok 1 1 "Kiddie" 1 (-1) dEx initState 4 rfl hge]
    unfold saleNegSt okOr
    rw [record_sale_ok 1 1 "Kiddie" 1 (-1) dEx initState 4 rfl hge]
  refine ⟨hok, ?_, ?_⟩
  · unfold saleNegSt okOr
    rw [record_sale_ok 1 1 "Kiddie" 1 (-1) dEx initState 4 rfl hge]
    rfl
  · unfold saleNegSt okOr
    rw [record_sale_ok 1 1 "Kiddie" 1 (-1) dEx initState 4 rfl hge]
    with_unfolding_all decide

/-- C9 witness: a quantity-0 Small sale on the fresh state (no ledger row)
succeeds, appends the event, and leaves the missing row missing. -/
theorem c9_witness :
    ∃ s', record_sale 1 1 "Small" 1 0 dEx initState = .ok s' ∧
      s'.sales = initState.sales ++ [⟨1, 1, dEx, "Small", 1, 0⟩] ∧
      (initState.inv (1, 1) = none → s'.inv (1, 1) = none) ∧
      (∀ e, initState.inv (1, 1) = some e →
        s'.inv (1, 1) = some ⟨e.ouncesOnHand - 8 * ((0 : Int) : ℚ), e.avgCostPerOz⟩) :=
  c9_nonpositive_sale initState 1 1 "Small" 1 0 dEx 8 rfl (by norm_num)
    (by with_unfolding_all decide)

/-- C7: adding a location whose name equals an existing location's name fails
(the UNIQUE constraint raises `IntegrityError`, returned as `False`) with no
side effect at all — the state is returned unchanged (stored names are
always stripped, which the first hypothesis records); adding a fresh name
creates the location row with the next id and, for every flavor existing at
that moment, a zero-quantity zero-cost ledger row (the freshness of the new
location id makes the insert-or-ignore always insert), touching no event log. -/
theorem c7_add_location : ∀ (s : AppState) (name : String),
    ((∀ p ∈ s.locations, pyStrip p.2 = p.2) → name ∈ s.locations.map Prod.snd →
      add_location name s = (false, s)) ∧
    (pyStrip name ∉ s.locations.map Prod.snd →
      (add_location name s).1 = true ∧
      (add_location name s).2.locations = s.locations ++ [(s.nextLocId, pyStrip name)] ∧
      (add_location name s).2.purchases = s.purchases ∧
      (add_location name s).2.sales = s.sales ∧
      (∀ fid ∈ s.flavors.map Prod.fst, s.inv (s.nextLocId, fid) = none →
        (add_location name s).2.inv (s.nextLocId, fid) = some ⟨0, 0⟩) ∧
      (∀ k, (add_location name s).2.inv k = s.inv k ∨
        (add_location name s).2.inv k = some ⟨0, 0⟩)) := by
  intro s name
  constructor
  · intro htrim hmem
    have hms : pyStrip name ∈ s.locations.map Prod.snd := by
      rcases List.mem_map.mp hmem with ⟨p, hp, hpe⟩
      rw [show pyStrip name = name from by rw [← hpe]; exact htrim p hp]
      exact hmem
    unfold add_location
    rw [if_pos hms]
  · intro hnot
    unfold add_location
    rw [if_neg hnot]
    refine ⟨rfl, rfl, rfl, rfl, ?_, ?_⟩
    · intro fid hfid hnone
      exact addZeroEntries_mem (s.flavors.map Prod.fst) s.nextLocId s.inv fid hfid
        (Or.inl hnone)
    · intro k
      exact addZeroEntries_spec (s.flavors.map Prod.fst) s.nextLocId s.inv k

/-- C7 witness: "Main" already exists in `eState`, so adding it fails with no
change; adding the fresh "Branch" creates a zero ledger row for flavor 3 at
the new location id 2. -/
theorem c7_witness :
    add_location "Main" eState = (false, eState) ∧
    (add_location "Branch" eState).2.inv (2, 3) = some ⟨0, 0⟩ := by
  have h1 := (c7_add_location eState "Main").1 (by decide) (by decide)
  have h2 := (c7_add_location eState "Branch").2 (by decide)
  exact ⟨h1, h2.2.2.2.2.1 3 (by decide) (by decide)⟩

/-! ### Income statement aggregation -/

theorem accRow_orders (conts : List (Nat × String × ℚ × Nat)) (acc : LoopAcc) (r : SaleRow)
    (a' : LoopAcc) (h : accRow conts acc r = some a') :
    a'.containerOrders = acc.containerOrders + r.quantity := by
  unfold accRow at h
  cases hsz : scoopsOz r.size with
  | none => rw [hsz] at h; exact absurd h (by simp)
  | some oz =>
    rw [hsz] at h
    cases hfc : findContainer conts r.containerTypeId with
    | none => rw [hfc] at h; exact absurd h (by simp)
    | some c =>
      obtain ⟨nm, pp, up⟩ := c
      rw [hfc] at h
      dsimp only at h
      injection h with h'
      rw [← h']

theorem accRows_orders (rows : List SaleRow) : ∀ (conts : List (Nat × String × ℚ × Nat))
    (acc acc' : LoopAcc), accRows conts acc rows = some acc' →
    acc'.containerOrders = acc.containerOrders + (rows.map fun r => r.quantity).sum := by
  induction rows with
  | nil =>
    intro conts acc acc' h
    unfold accRows at h
    injection h with h'
    rw [← h']
    simp
  | cons r rows ih =>
    intro conts acc acc' h
    unfold accRows at h
    cases ha : accRow conts acc r with
    | none => rw [ha] at h; exact absurd h (by simp)
    | some a1 =>
      rw [ha] at h
      rw [ih conts a1 acc' h, accRow_orders conts acc r a1 ha, List.map_cons, List.sum_cons]
      ring

/-- C4 (amended): in the monthly income statement of a location, the napkin
cost equals the fixed per-order cost `NAPKIN_COST_PER_ORDER` ($0.004)
multiplied by the total quantity summed over the period's sale lines
(`container_orders += qty` counts every unit of a line's quantity as an
order), not by the number of transaction lines. -/
theorem c4_napkin_cost : ∀ (s : AppState) (start stop : List Nat) (locId : Nat) (st : Stmt),
    incomeStatementLoc s start stop locId = some st →
    st.cogsNapkins = NAPKIN_COST_PER_ORDER *
      ((((salesForLoc s locId start stop).map fun r => r.quantity).sum : Int) : ℚ) := by
  intro s start stop locId st h
  unfold incomeStatementLoc at h
  cases ha : accRows s.containers ⟨0, [], 0, 0⟩ (salesForLoc s locId start stop) with
  | none => rw [ha] at h; exact absurd h (by simp)
  | some acc =>
    rw [ha] at h
    simp only [Option.map_some', Option.some.injEq] at h
    have horders := accRows_orders (salesForLoc s locId start stop) s.containers
      ⟨0, [], 0, 0⟩ acc ha
    dsimp only at horders
    rw [zero_add] at horders
    rw [← h]
    unfold mkStmt
    dsimp only
    rw [horders]

/-- C4 counterexample: a single sale line of quantity 2 (Kiddie, container 1)
yields napkin cost `0.004 * 2 = 1/125`, not the fixed per-transaction-line
cost `0.004 * 1`: the napkin cost depends on the line's quantity, refuting
"each sale transaction line counts as one order, independent of the line's
quantity". -/
theorem c4_counterexample :
    incomeStatementLoc cState (fmtDate 2024 5 1) (fmtDate 2024 6 1) 1 = some cStmt ∧
    cStmt.cogsNapkins = 1 / 125 ∧ cStmt.cogsNapkins ≠ NAPKIN_COST_PER_ORDER * 1 := by
  refine ⟨?_, ?_, ?_⟩
  · unfold cStmt
    with_unfolding_all rfl
  · with_unfolding_all decide
  · with_unfolding_all decide

/-- C4 witness: the amended napkin formula instantiated on the concrete
May-2024 state with one quantity-2 line. -/
theorem c4_witness :
    cStmt.cogsNapkins = NAPKIN_COST_PER_ORDER *
      ((((salesForLoc cState 1 (fmtDate 2024 5 1) (fmtDate 2024 6 1)).map
        fun r => r.quantity).sum : Int) : ℚ) :=
  c4_napkin_cost cState (fmtDate 2024 5 1) (fmtDate 2024 6 1) 1 cStmt
    (by unfold cStmt; with_unfolding_all rfl)

theorem foldl_stmtAdd_eq (l : List (String × Stmt)) : ∀ a : Stmt,
    l.foldl (fun c q => stmtAdd c q.2) a =
      ⟨a.revenue + (l.map fun q => q.2.revenue).sum,
       a.cogsIcecream + (l.map fun q => q.2.cogsIcecream).sum,
       a.cogsContainers + (l.map fun q => q.2.cogsContainers).sum,
       a.cogsNapkins + (l.map fun q => q.2.cogsNapkins).sum,
       a.grossProfit + (l.map fun q => q.2.grossProfit).sum,
       a.operatingExpenses + (l.map fun q => q.2.operatingExpenses).sum,
       a.operatingIncome + (l.map fun q => q.2.operatingIncome).sum,
       a.netIncome + (l.map fun q => q.2.netIncome).sum⟩ := by
  induction l with
  | nil =>
    intro a
    cases a
    simp
  | cons q l ih =>
    intro a
    rw [List.foldl_cons, ih]
    simp only [List.map_cons, List.sum_cons, stmtAdd, Stmt.mk.injEq]
    refine ⟨?_, ?_, ?_, ?_, ?_, ?_, ?_, ?_⟩ <;> ring

/-- C8: in `generate_income_statement` every company-wide field — revenue,
each COGS component, gross profit, operating expenses, operating income and
net income — equals the sum of that field over the per-location statements
of the same period (the company dict is the field-wise `+=` over them). -/
theorem c8_company_totals : ∀ (year month : Nat) (s : AppState)
    (stmts : List (String × Stmt)) (comp : Stmt),
    generate_income_statement year month s = some (stmts, comp) →
    comp.revenue = (stmts.map fun q => q.2.revenue).sum ∧
    comp.cogsIcecream = (stmts.map fun q => q.2.cogsIcecream).sum ∧
    comp.cogsContainers = (stmts.map fun q => q.2.cogsContainers).sum ∧
    comp.cogsNapkins = (stmts.map fun q => q.2.cogsNapkins).sum ∧
    comp.grossProfit = (stmts.map fun q => q.2.grossProfit).sum ∧
    comp.operatingExpenses = (stmts.map fun q => q.2.operatingExpenses).sum ∧
    comp.operatingIncome = (stmts.map fun q => q.2.operatingIncome).sum ∧
    comp.netIncome = (stmts.map fun q => q.2.netIncome).sum := by
  intro y m s stmts comp h
  unfold generate_income_statement at h
  cases hl : stmtsForLocs s (monthBounds y m).1 (monthBounds y m).2 s.locations with
  | none => rw [hl] at h; exact absurd h (by simp)
  | some L =>
    rw [hl] at h
    simp only [Option.map_some', Option.some.injEq, Prod.mk.injEq] at h
    obtain ⟨h1, h2⟩ := h
    subst h1
    subst h2
    rw [foldl_stmtAdd_eq]
    simp [zeroStmt]

/-- C8 witness: on the fresh state (no locations) the company statement is
the empty field-wise sum. -/
theorem c8_witness :
    zeroStmt.revenue = (([] : List (String × Stmt)).map fun q => q.2.revenue).sum ∧
    zeroStmt.cogsIcecream = (([] : List (String × Stmt)).map fun q => q.2.cogsIcecream).sum ∧
    zeroStmt.cogsContainers
      = (([] : List (String × Stmt)).map fun q => q.2.cogsContainers).sum ∧
    zeroStmt.cogsNapkins = (([] : List (String × Stmt)).map fun q => q.2.cogsNapkins).sum ∧
    zeroStmt.grossProfit = (([] : List (String × Stmt)).map fun q => q.2.grossProfit).sum ∧
    zeroStmt.operatingExpenses
      = (([] : List (String × Stmt)).map fun q => q.2.operatingExpenses).sum ∧
    zeroStmt.operatingIncome
      = (([] : List (String × Stmt)).map fun q => q.2.operatingIncome).sum ∧
    zeroStmt.netIncome = (([] : List (String × Stmt)).map fun q => q.2.netIncome).sum :=
  c8_company_totals 2024 5 initState [] zeroStmt rfl
